import Mathlib

/-!
Verification of the recommendation core of the Minor-Project backend
(`recommendation_module.py`), shallowly embedded in Lean 4.

Modelling conventions:
* pandas DataFrames become lists of records; a row's column becomes a field.
* Python dicts (insertion ordered, assignment overwrites the value of an
  existing key in place) become association lists with the `dinsert`
  operation below.
* The fuzzywuzzy scorer `fuzz.token_sort_ratio` is an external library
  function, not code of this repository; it is kept abstract as a parameter
  `scorer : String → String → Nat` producing a 0–100 similarity score.
  `process.extractOne` (max score, first choice wins ties) is embedded
  concretely over that parameter.
* Python floats are modelled as rationals inside the data pipeline and as
  real numbers for the trigonometric distance function; the distance
  function used by the pipeline is a parameter `distf` so that the pipeline
  stays executable.
* File writes are modelled as fields of the explicit state: the state
  carries both the in-memory tables and the persisted copies.
* Stateful functions take and return the explicit state.
-/

namespace RecommendationModule

/-- Python dict membership for association lists (first binding wins,
matching `query in fuzzy_training_data[category_type]`). -/
def dlookup {β : Type} (d : List (String × β)) (k : String) : Option β :=
  (d.find? (fun p => p.1 = k)).map (fun p => p.2)

/-- Python dict assignment `d[k] = v`: overwrite the value in place if the
key exists (keeping its insertion position), otherwise append. -/
def dinsert {β : Type} (d : List (String × β)) (k : String) (v : β) :
    List (String × β) :=
  if d.any (fun p => p.1 = k) then
    d.map (fun p => if p.1 = k then (k, v) else p)
  else d ++ [(k, v)]

/-- The two vocabularies of the fuzzy training data
(`{"categories": {}, "products": {}}`). -/
inductive Kind where
  | categories
  | products
deriving Repr, DecidableEq

/-- `fuzzy_training_data`: mapping of mappings, one inner dict per kind. -/
structure TrainingData where
  categories : List (String × String)
  products : List (String × String)
deriving Repr, DecidableEq

def TrainingData.get (td : TrainingData) : Kind → List (String × String)
  | Kind.categories => td.categories
  | Kind.products => td.products

def TrainingData.set (td : TrainingData) (k : Kind)
    (d : List (String × String)) : TrainingData :=
  match k with
  | Kind.categories => { td with categories := d }
  | Kind.products => { td with products := d }

/-- Python truthiness of an optional string: `None` and `""` are falsy. -/
def truthy : Option String → Bool
  | none => false
  | some s => s ≠ ""

/-- `process.extractOne(query, choices, scorer=...)`: best-scoring choice
with its score; on a score tie the earlier choice wins; `none` on an empty
choice list (where the Python library returns `None`). -/
def extractOne (scorer : String → String → Nat) (query : String)
    (choices : List String) : Option (String × Nat) :=
  choices.foldl
    (fun best c =>
      match best with
      | none => some (c, scorer query c)
      | some (b, s) =>
          if scorer query c > s then some (c, scorer query c) else some (b, s))
    none

/-- Mutable-state part touched by the fuzzy matcher: the in-memory training
dict plus its persisted file copy (`fuzzy_training_data.json`). -/
structure FuzzyState where
  data : TrainingData
  file : TrainingData
deriving Repr, DecidableEq

/-- `train_fuzzy_match(query, actual, category_type)`: record the mapping if
the query is new, then persist the whole training dict to the file. -/
def train_fuzzy_match (st : FuzzyState) (query actual : String)
    (kind : Kind) : FuzzyState :=
  let d := st.data.get kind
  let d2 := if (dlookup d query).isSome then d else dinsert d query actual
  let data2 := st.data.set kind d2
  { data := data2, file := data2 }

/-- `fuzzy_match(query, choices, category_type, threshold=75)`: cache hit
returns the cached term unscored; otherwise the best choice is accepted and
recorded when its score reaches the threshold, else no match. -/
def fuzzy_match (scorer : String → String → Nat) (st : FuzzyState)
    (query : String) (choices : List String) (kind : Kind)
    (threshold : Nat := 75) : Option String × FuzzyState :=
  match dlookup (st.data.get kind) query with
  | some cached => (some cached, st)
  | none =>
      match extractOne scorer query choices with
      | none => (none, st)
      | some (m, score) =>
          if score ≥ threshold then
            (some m, train_fuzzy_match st query m kind)
          else (none, st)

/-! ## Geospatial distance (`haversine_distance`)

Python floats are modelled as real numbers; `math.radians`, `math.sin`,
`math.cos`, `math.sqrt` and `math.atan2` become their real counterparts
(`atan2 y x` is the argument of the complex number `x + i·y`, which is the
mathematical definition of `math.atan2`). -/

noncomputable def radians (x : ℝ) : ℝ := x * (Real.pi / 180)

noncomputable def atan2 (y x : ℝ) : ℝ := Complex.arg { re := x, im := y }

/-- The squared-half-chord intermediate `a` of `haversine_distance`, before
the clamp on line 48. -/
noncomputable def haversine_a (lat1 lon1 lat2 lon2 : ℝ) : ℝ :=
  let lat1r := radians lat1
  let lon1r := radians lon1
  let lat2r := radians lat2
  let lon2r := radians lon2
  let dlat := lat2r - lat1r
  let dlon := lon2r - lon1r
  Real.sin (dlat / 2) ^ 2 +
    Real.cos lat1r * Real.cos lat2r * Real.sin (dlon / 2) ^ 2

/-- `a = max(0, min(1, a))`: the clamp of the intermediate to `[0, 1]`. -/
noncomputable def haversine_a_clamped (lat1 lon1 lat2 lon2 : ℝ) : ℝ :=
  max 0 (min 1 (haversine_a lat1 lon1 lat2 lon2))

/-- `haversine_distance(lat1, lon1, lat2, lon2)` of the source. -/
noncomputable def haversine_distance (lat1 lon1 lat2 lon2 : ℝ) : ℝ :=
  let R : ℝ := 6371000
  let a := haversine_a_clamped lat1 lon1 lat2 lon2
  let c := 2 * atan2 (Real.sqrt a) (Real.sqrt (1 - a))
  R * c

/-! ## Catalog rows

Row types of the two CSV-backed DataFrames.  The shop table carries a
`category` column (the source builds `unique_categories` from it). -/

structure InvRow where
  shopId : Nat
  productName : String
  category : String
  stockAvailability : Int
deriving Repr, DecidableEq

structure ShopRow where
  shopId : Nat
  store : String
  category : String
  latitude : ℚ
  longitude : ℚ
  rating : ℚ
  price : ℚ
  queue_size : Int
deriving Repr, DecidableEq

/-- pandas `.unique().tolist()`: distinct values in first-occurrence order. -/
def uniqueList (l : List String) : List String :=
  l.foldl (fun acc s => if s ∈ acc then acc else acc ++ [s]) []

/-- `unique_products = inventory_df["productName"].unique().tolist()`. -/
def unique_products (inventory : List InvRow) : List String :=
  uniqueList (inventory.map (fun r => r.productName))

/-- `unique_categories = shopdata_df["category"].unique().tolist()`. -/
def unique_categories (shops : List ShopRow) : List String :=
  uniqueList (shops.map (fun s => s.category))

/-- A row of the merged `product_shops` frame, with the computed
`distance` column. -/
structure Candidate where
  shopId : Nat
  productName : String
  stockAvailability : Int
  store : String
  latitude : ℚ
  longitude : ℚ
  rating : ℚ
  price : ℚ
  queue_size : Int
  distance : ℚ
deriving Repr, DecidableEq

/-- `inventory_df[inventory_df["productName"] == product].merge(shopdata_df,
on="shopId", how="inner")`, with the `distance` column added.  `distf` is
the distance function (the source passes `haversine_distance`; it is a
parameter here so that the pipeline stays executable over rationals). -/
def product_shops (distf : ℚ → ℚ → ℚ → ℚ → ℚ) (loc : ℚ × ℚ)
    (inventory : List InvRow) (shops : List ShopRow) (product : String) :
    List Candidate :=
  (inventory.filter (fun r => r.productName == product)).flatMap (fun r =>
    (shops.filter (fun s => s.shopId == r.shopId)).map (fun s =>
      { shopId := r.shopId, productName := r.productName,
        stockAvailability := r.stockAvailability, store := s.store,
        latitude := s.latitude, longitude := s.longitude,
        rating := s.rating, price := s.price, queue_size := s.queue_size,
        distance := distf loc.1 loc.2 s.latitude s.longitude }))

/-- Insert an element into a sorted list, before the first element it
compares `le` to. -/
def insertSorted {α : Type} (le : α → α → Bool) (a : α) : List α → List α
  | [] => [a]
  | b :: t => if le a b then a :: b :: t else b :: insertSorted le a t

/-- `sort_values(by=..., ascending=...)`: a deterministic comparison sort
(pandas' tie order is unspecified; any deterministic sort models it).  A
structural insertion sort is used so that terms evaluate by kernel
reduction. -/
def sortBy {α : Type} (le : α → α → Bool) : List α → List α
  | [] => []
  | a :: t => insertSorted le a (sortBy le t)

/-- `sort_values(by="rating", ascending=False)` as a comparator. -/
def byRatingDesc (a b : Candidate) : Bool := decide (b.rating ≤ a.rating)

/-- Candidate retrieval for one product: sort by rating descending, keep the
top 10 (`.sort_values(by="rating", ascending=False).head(10)`). -/
def retrieveTop10 (distf : ℚ → ℚ → ℚ → ℚ → ℚ) (loc : ℚ × ℚ)
    (inventory : List InvRow) (shops : List ShopRow) (product : String) :
    List Candidate :=
  (sortBy byRatingDesc (product_shops distf loc inventory shops product)).take 10

/-- The candidate-retrieval loop over `matched_results` building
`final_shop_recommendations` (keyed by product; empty candidate sets are
skipped). -/
def recommendationStep (distf : ℚ → ℚ → ℚ → ℚ → ℚ) (loc : ℚ × ℚ)
    (inventory : List InvRow) (shops : List ShopRow)
    (matched : List (String × String)) : List (String × List Candidate) :=
  matched.foldl
    (fun acc kv =>
      if (product_shops distf loc inventory shops kv.2).isEmpty then acc
      else dinsert acc kv.2 (retrieveTop10 distf loc inventory shops kv.2))
    []

/-- The filtering branch of the source: re-sort one product's candidate set
by queue size (choice 1), price (choice 2) or rating descending (otherwise),
then keep the top 10. -/
def applyFilter (filter_choice : Int) (shops : List Candidate) :
    List Candidate :=
  if filter_choice = 1 then
    (sortBy (fun a b => decide (a.queue_size ≤ b.queue_size)) shops).take 10
  else if filter_choice = 2 then
    (sortBy (fun a b => decide (a.price ≤ b.price)) shops).take 10
  else
    (sortBy byRatingDesc shops).take 10

/-- The filtering loop over `final_shop_recommendations` (in-place value
update of each key). -/
def filterStep (filter_choice : Int)
    (recs : List (String × List Candidate)) :
    List (String × List Candidate) :=
  recs.map (fun kv => (kv.1, applyFilter filter_choice kv.2))

/-! ## The matching step of `evaluate_recommendations` (lines 83–95) -/

/-- One iteration of the matching loop: resolve the category, resolve the
product globally, and on a falsy product retry restricted to the matched
category's products (the Python guard `"category" in inventory_df.columns`
always holds in this model, since `InvRow` carries the column).  Returns
`(matched_category, matched_product, updated fuzzy state)`. -/
def resolveItem (scorer : String → String → Nat) (inventory : List InvRow)
    (cats prods : List String) (st : FuzzyState) (category product : String) :
    Option String × Option String × FuzzyState :=
  let r1 := fuzzy_match scorer st category cats Kind.categories
  let matched_category := r1.1
  let r2 := fuzzy_match scorer r1.2 product prods Kind.products
  let mp0 := r2.1
  let matched_product :=
    if truthy mp0 then mp0
    else if truthy matched_category then
      let mc := matched_category.getD ""
      let category_products := uniqueList
        ((inventory.filter (fun r => r.category == mc)).map
          (fun r => r.productName))
      if category_products.isEmpty then mp0
      else (extractOne scorer product category_products).map (fun p => p.1)
    else mp0
  (matched_category, matched_product, r2.2)

/-- The matching loop building `matched_results` (a Python dict keyed by
the matched category): items whose category or product stays falsy are
skipped, the rest are written with dict assignment. -/
def matchStep (scorer : String → String → Nat) (inventory : List InvRow)
    (cats prods : List String) (st : FuzzyState)
    (test_input : List (String × String)) :
    List (String × String) × FuzzyState :=
  test_input.foldl
    (fun acc kv =>
      let r := resolveItem scorer inventory cats prods acc.2 kv.1 kv.2
      if truthy r.1 && truthy r.2.1 then
        (dinsert acc.1 (r.1.getD "") (r.2.1.getD ""), r.2.2)
      else (acc.1, r.2.2))
    ([], st)

/-! ## Path generation (lines 120–143) -/

/-- One entry of a shop path, as assembled on lines 132–142.  The
`new_token_number` key is absent before commit (modelled as `none`) and
written during commit. -/
structure PathEntry where
  shopId : Nat
  product : String
  store : String
  rating : ℚ
  price : ℚ
  distance : ℚ
  queue_size : Int
  lat : ℚ
  long : ℚ
  new_token_number : Option Int
deriving Repr, DecidableEq

/-- The dict literal appended to `path_shops` for a selected shop. -/
def mkEntry (product : String) (c : Candidate) : PathEntry :=
  { shopId := c.shopId, product := product, store := c.store,
    rating := c.rating, price := c.price, distance := c.distance,
    queue_size := c.queue_size, lat := c.latitude, long := c.longitude,
    new_token_number := none }

/-- One iteration of the inner path loop: drop the shops already chosen in
this path, re-sort by rating descending, and take the first remaining
candidate if any (`chosen_shops` is a set used only for membership, so a
list suffices). -/
def genPathStep (acc : List PathEntry × List Nat)
    (kv : String × List Candidate) : List PathEntry × List Nat :=
  match sortBy byRatingDesc (kv.2.filter (fun c => !(acc.2.contains c.shopId))) with
  | [] => acc
  | c :: _ => (acc.1 ++ [mkEntry kv.1 c], acc.2 ++ [c.shopId])

/-- One attempt of the outer loop: greedy walk over the products of
`final_shop_recommendations` with a freshly emptied exclusion set. -/
def genPath (recs : List (String × List Candidate)) : List PathEntry :=
  (recs.foldl genPathStep ([], [])).1

/-- The `for _ in range(5)` loop appending one generated path per
iteration into `possible_paths`. -/
def generatePaths (recs : List (String × List Candidate)) :
    List (List PathEntry) :=
  (List.range 5).foldl (fun paths _ => paths ++ [genPath recs]) []

/-! ## Commit (lines 151–161) -/

/-- The two in-memory DataFrames mutated by commit. -/
structure Catalog where
  inventory : List InvRow
  shops : List ShopRow
deriving Repr, DecidableEq

/-- The `.loc[...] -= 1` decrement of one committed entry on an inventory
row: rows matching the entry's shop and product lose one unit. -/
def decRow (e : PathEntry) (r : InvRow) : InvRow :=
  if r.shopId == e.shopId && r.productName == e.product then
    { r with stockAvailability := r.stockAvailability - 1 }
  else r

/-- `inventory_df["stockAvailability"].clip(lower=0)` on one row. -/
def clipRow (r : InvRow) : InvRow :=
  { r with stockAvailability := max r.stockAvailability 0 }

/-- The `queue_size += 1` increment of one committed entry on a shop row. -/
def bumpShop (e : PathEntry) (s : ShopRow) : ShopRow :=
  if s.shopId == e.shopId then { s with queue_size := s.queue_size + 1 }
  else s

/-- The body of the commit loop for one entry of the selected path:
decrement the matching inventory rows, clip the whole stock column at 0,
increment the matching shop rows, then read the first matching shop row's
queue size back into the entry as `new_token_number` (the source's
`.values[0]` raises on an empty selection; that is modelled as `none`). -/
def commitEntry (cat : Catalog) (e : PathEntry) : Catalog × PathEntry :=
  let inv := (cat.inventory.map (decRow e)).map clipRow
  let shops := cat.shops.map (bumpShop e)
  let tok := (shops.find? (fun s => s.shopId == e.shopId)).map
    (fun s => s.queue_size)
  (⟨inv, shops⟩, { e with new_token_number := tok })

/-- The commit loop over the whole selected path, in order, returning the
final catalog and the committed entries. -/
def commitPath (cat : Catalog) (path : List PathEntry) :
    Catalog × List PathEntry :=
  path.foldl
    (fun acc e =>
      let r := commitEntry acc.1 e
      (r.1, acc.2 ++ [r.2]))
    (cat, [])

/-! ## `evaluate_recommendations` end to end -/

/-- The process state touched by `evaluate_recommendations`: the two
in-memory DataFrames, the fuzzy-matcher state, and the persisted CSV
copies of the two DataFrames (written only by the commit branch). -/
structure EvalState where
  inventory : List InvRow
  shops : List ShopRow
  fuzzy : FuzzyState
  inventoryFile : List InvRow
  shopFile : List ShopRow
deriving Repr, DecidableEq

/-- The two result dicts the function can return: the "no valid shop path"
dict of line 146 and the full result dict of lines 167–171
(`convert_numpy_types` only changes scalar representations, modelled as
the identity). -/
inductive EvalResult where
  | noPath (message : String) (possible_paths : List (List PathEntry))
  | ok (selected_path : List PathEntry)
      (possible_paths : List (List PathEntry)) (evaluationType : String)
deriving Repr, DecidableEq

/-- Python list indexing `l[i]` (negative indices count from the end);
`none` models the `IndexError`. -/
def pyGet {α : Type} (l : List α) (i : Int) : Option α :=
  if 0 ≤ i then l[i.toNat]?
  else if 0 ≤ i + l.length then l[(i + l.length).toNat]? else none

/-- The matching step of `evaluate_recommendations`, with the two
vocabularies as the source computes them (module-level `unique_categories`
and `unique_products`; within one call they agree with the current frames,
whose name columns are never mutated). -/
def evalMatch (scorer : String → String → Nat) (st : EvalState)
    (test_input : List (String × String)) :
    List (String × String) × FuzzyState :=
  matchStep scorer st.inventory (unique_categories st.shops)
    (unique_products st.inventory) st.fuzzy test_input

/-- `final_shop_recommendations` after candidate retrieval and filtering. -/
def evalRecs (scorer : String → String → Nat)
    (distf : ℚ → ℚ → ℚ → ℚ → ℚ) (st : EvalState)
    (test_input : List (String × String)) (filter_choice : Int)
    (user_location : ℚ × ℚ) : List (String × List Candidate) :=
  filterStep filter_choice
    (recommendationStep distf user_location st.inventory st.shops
      (evalMatch scorer st test_input).1)

/-- `possible_paths` as generated for one request. -/
def evalPaths (scorer : String → String → Nat)
    (distf : ℚ → ℚ → ℚ → ℚ → ℚ) (st : EvalState)
    (test_input : List (String × String)) (filter_choice : Int)
    (user_location : ℚ × ℚ) : List (List PathEntry) :=
  generatePaths (evalRecs scorer distf st test_input filter_choice
    user_location)

/-- `evaluate_recommendations` end to end: match, retrieve, filter,
generate paths, then either return the no-valid-path dict (no commit, no
CSV write) or commit the selected path and persist both DataFrames.
`none` models an uncaught `IndexError` from a bad `selected_path_index`.
In the source the committed entries are the same dict objects that sit
inside `possible_paths[selected_path_index]`; the model returns the
committed copies in `selected_path` and the as-generated paths in
`possible_paths`. -/
def evaluate_recommendations (scorer : String → String → Nat)
    (distf : ℚ → ℚ → ℚ → ℚ → ℚ) (st : EvalState)
    (test_input : List (String × String)) (filter_choice : Int)
    (selection_type : String) (user_location : ℚ × ℚ)
    (selected_path_index : Int := 0) : Option (EvalResult × EvalState) :=
  let fuzzy2 := (evalMatch scorer st test_input).2
  let possible_paths :=
    evalPaths scorer distf st test_input filter_choice user_location
  if possible_paths.isEmpty then
    some (EvalResult.noPath "No valid shop path found." possible_paths,
      { st with fuzzy := fuzzy2 })
  else
    match pyGet possible_paths selected_path_index with
    | none => none
    | some [] =>
        some (EvalResult.noPath "No valid shop path found." possible_paths,
          { st with fuzzy := fuzzy2 })
    | some selected =>
        let c := commitPath ⟨st.inventory, st.shops⟩ selected
        some (EvalResult.ok c.2 possible_paths selection_type,
          { inventory := c.1.inventory, shops := c.1.shops, fuzzy := fuzzy2,
            inventoryFile := c.1.inventory, shopFile := c.1.shops })

/-! ## Concrete fixtures used by witnesses and counterexamples -/

/-- A trivial scorer: every comparison scores 0 (the cache-hit paths of the
matcher never consult the scorer). -/
def zeroScorer : String → String → Nat := fun _ _ => 0

/-- A fuzzy state whose caches resolve two raw categories to the same
canonical category and two products to different canonical products. -/
def c1state : FuzzyState :=
  ⟨⟨[("catA", "X"), ("catB", "X")], [("p1", "A"), ("p2", "B")]⟩,
   ⟨[("catA", "X"), ("catB", "X")], [("p1", "A"), ("p2", "B")]⟩⟩

/-- A scorer under which only exact matches reach the threshold. -/
def c2scorer : String → String → Nat := fun q c => if q = c then 100 else 10

/-- One inventory row: shop 1 stocks "apple" in category "Cat". -/
def c2inventory : List InvRow := [⟨1, "apple", "Cat", 5⟩]

/-- A fuzzy state that resolves the raw category "c" to "Cat" and has no
product cache. -/
def c2state : FuzzyState := ⟨⟨[("c", "Cat")], []⟩, ⟨[("c", "Cat")], []⟩⟩

/-- An empty fuzzy state. -/
def emptyFuzzy : FuzzyState := ⟨⟨[], []⟩, ⟨[], []⟩⟩

/-- A rational-valued stand-in distance function for fixtures. -/
def zeroDist : ℚ → ℚ → ℚ → ℚ → ℚ := fun _ _ _ _ => 0

/-- One shop row: shop 1 named "S" in category "Cat", rating 5, price 10,
empty queue. -/
def c6shops : List ShopRow := [⟨1, "S", "Cat", 0, 0, 5, 10, 0⟩]

/-- The full state for the small fixtures: shop 1 stocking "apple". -/
def c6st : EvalState := ⟨c2inventory, c6shops, c2state, c2inventory, c6shops⟩

/-- A state with empty catalogs for the no-valid-path fixture. -/
def emptySt : EvalState := ⟨[], [], emptyFuzzy, [], []⟩

/-- A one-row catalog whose single inventory row is already out of stock. -/
def c4cat : Catalog := ⟨[⟨1, "apple", "Cat", 0⟩], c6shops⟩

/-- A single candidate row for the C10 witness. -/
def c10cand : Candidate := ⟨1, "apple", 5, "S", 0, 0, 5, 10, 0, 0⟩

/-- A path entry committing "apple" at shop 1. -/
def c4entry : PathEntry :=
  { shopId := 1, product := "apple", store := "S", rating := 5, price := 10,
    distance := 0, queue_size := 0, lat := 0, long := 0,
    new_token_number := none }

/-! ## Helper lemmas and claim theorems -/

/-- Membership of `extractOne`'s result in the choice list. -/
theorem extractOne_mem (scorer : String → String → Nat) (query : String)
    (choices : List String) (m : String) (s : Nat)
    (h : extractOne scorer query choices = some (m, s)) : m ∈ choices := by
  unfold extractOne at h
  suffices H : ∀ (l : List String) (acc : Option (String × Nat)),
      (∀ b sc, acc = some (b, sc) → b ∈ choices) →
      (∀ c ∈ l, c ∈ choices) →
      ∀ b sc,
        l.foldl
          (fun best c =>
            match best with
            | none => some (c, scorer query c)
            | some (b, s) =>
                if scorer query c > s then some (c, scorer query c)
                else some (b, s)) acc = some (b, sc) → b ∈ choices by
    exact H choices none (by intro b sc hb; cases hb) (fun c hc => hc) m s h
  intro l
  induction l with
  | nil =>
      intro acc hacc _ b sc hfold
      exact hacc b sc hfold
  | cons c t ih =>
      intro acc hacc hsub b sc hfold
      simp only [List.foldl_cons] at hfold
      refine ih _ ?_ (fun x hx => hsub x (List.mem_cons_of_mem _ hx)) b sc hfold
      intro b2 sc2 hb2
      cases acc with
      | none =>
          simp only at hb2
          cases hb2
          exact hsub c (List.mem_cons_self _ _)
      | some p =>
          obtain ⟨b0, s0⟩ := p
          simp only at hb2
          by_cases hgt : scorer query c > s0
          · simp [hgt] at hb2
            rcases hb2 with ⟨hb, _⟩
            subst hb
            exact hsub c (List.mem_cons_self _ _)
          · simp [hgt] at hb2
            rcases hb2 with ⟨hb, _⟩
            subst hb
            exact hacc b0 s0 rfl

/-- Inserting into a sorted list is a permutation of consing. -/
theorem insertSorted_perm {α : Type} (le : α → α → Bool) (a : α)
    (l : List α) : List.Perm (insertSorted le a l) (a :: l) := by
  induction l with
  | nil => simp [insertSorted]
  | cons b t ih =>
      unfold insertSorted
      split
      · exact List.Perm.refl _
      · exact List.Perm.trans (List.Perm.cons b ih) (List.Perm.swap a b t)

/-- The sort is a permutation of its input. -/
theorem sortBy_perm {α : Type} (le : α → α → Bool) (l : List α) :
    List.Perm (sortBy le l) l := by
  induction l with
  | nil => exact List.Perm.refl _
  | cons a t ih =>
      unfold sortBy
      exact List.Perm.trans (insertSorted_perm le a (sortBy le t))
        (List.Perm.cons a ih)

/-- Re-sorting an at-most-10-row set and keeping the top 10 removes
nothing: the filter output is a permutation of its input. -/
theorem applyFilter_perm (filter_choice : Int) (l : List Candidate)
    (h : l.length ≤ 10) : List.Perm (applyFilter filter_choice l) l := by
  unfold applyFilter
  split
  · rw [List.take_of_length_le
      (by rw [(sortBy_perm _ l).length_eq]; exact h)]
    exact sortBy_perm _ l
  · split
    · rw [List.take_of_length_le
        (by rw [(sortBy_perm _ l).length_eq]; exact h)]
      exact sortBy_perm _ l
    · rw [List.take_of_length_le
        (by rw [(sortBy_perm _ l).length_eq]; exact h)]
      exact sortBy_perm _ l

/-- Looking up the key just written by dict assignment yields the value
just written. -/
theorem dlookup_dinsert {β : Type} (d : List (String × β)) (k : String)
    (v : β) : dlookup (dinsert d k v) k = some v := by
  unfold dinsert
  by_cases hany : d.any (fun p => p.1 = k) = true
  · rw [if_pos hany]
    induction d with
    | nil => cases hany
    | cons p t ih =>
        by_cases hp : p.1 = k
        · simp [dlookup, hp]
        · have ht : t.any (fun p => p.1 = k) = true := by
            simpa [List.any_cons, hp] using hany
          have := ih ht
          simpa [dlookup, hp] using this
  · rw [if_neg hany]
    induction d with
    | nil => simp [dlookup]
    | cons p t ih =>
        have hp : ¬ p.1 = k := by
          intro hk
          exact hany (by simp [List.any_cons, hk])
        have ht : ¬ t.any (fun p => p.1 = k) = true := by
          intro hk
          exact hany (by simp [List.any_cons, hk])
        have := ih ht
        simpa [dlookup, hp] using this

/-- `atan2` of a non-negative ordinate is non-negative. -/
theorem atan2_nonneg (y x : ℝ) (hy : 0 ≤ y) : 0 ≤ atan2 y x := by
  unfold atan2
  exact Complex.arg_nonneg_iff.mpr hy

/-- C8: the distance function is total over its real-number model: the
clamped squared-half-chord intermediate always lies in `[0, 1]` (so both
square-root arguments are within the square root's domain), and the
returned distance is non-negative.  Absence of `NaN` and of a `math domain
error` is rendered as totality of the real-valued function together with
these domain bounds. -/
theorem haversine_total (lat1 lon1 lat2 lon2 : ℝ) :
    0 ≤ haversine_a_clamped lat1 lon1 lat2 lon2 ∧
    haversine_a_clamped lat1 lon1 lat2 lon2 ≤ 1 ∧
    0 ≤ 1 - haversine_a_clamped lat1 lon1 lat2 lon2 ∧
    0 ≤ haversine_distance lat1 lon1 lat2 lon2 := by
  have h0 : 0 ≤ haversine_a_clamped lat1 lon1 lat2 lon2 := le_max_left 0 _
  have h1 : haversine_a_clamped lat1 lon1 lat2 lon2 ≤ 1 :=
    max_le zero_le_one (min_le_left 1 _)
  refine ⟨h0, h1, by linarith, ?_⟩
  unfold haversine_distance
  have hatan : 0 ≤ atan2 (Real.sqrt (haversine_a_clamped lat1 lon1 lat2 lon2))
      (Real.sqrt (1 - haversine_a_clamped lat1 lon1 lat2 lon2)) :=
    atan2_nonneg _ _ (Real.sqrt_nonneg _)
  have : (0 : ℝ) ≤ 6371000 := by norm_num
  positivity

/-- The head cases of inserting into a list. -/
theorem insertSorted_head_cases {α : Type} (le : α → α → Bool) (a : α)
    (s : List α) :
    (s = [] ∧ (insertSorted le a s).head? = some a) ∨
    (∃ b t2, s = b :: t2 ∧ le a b = true ∧
      (insertSorted le a s).head? = some a) ∨
    (∃ b t2, s = b :: t2 ∧ le a b = false ∧
      (insertSorted le a s).head? = some b) := by
  cases s with
  | nil => exact Or.inl ⟨rfl, rfl⟩
  | cons b t2 =>
      by_cases hb : le a b = true
      · refine Or.inr (Or.inl ⟨b, t2, rfl, hb, ?_⟩)
        simp [insertSorted, hb]
      · refine Or.inr (Or.inr ⟨b, t2, rfl, by simpa using hb, ?_⟩)
        simp [insertSorted, hb]

/-- For a transitive total comparator, the head of the sorted list
dominates every element of the input. -/
theorem sortBy_head_max {α : Type} (le : α → α → Bool)
    (htrans : ∀ a b c, le a b = true → le b c = true → le a c = true)
    (htotal : ∀ a b, le a b = true ∨ le b a = true) :
    ∀ (l : List α) (c : α), (sortBy le l).head? = some c →
      ∀ x ∈ l, le c x = true := by
  intro l
  induction l with
  | nil => intro c hc; cases hc
  | cons a t ih =>
      intro c hc x hx
      unfold sortBy at hc
      rcases insertSorted_head_cases le a (sortBy le t) with
        ⟨hnil, hhead⟩ | ⟨b, t2, hs, hab, hhead⟩ | ⟨b, t2, hs, hab, hhead⟩
      · rw [hhead] at hc
        injection hc with hac
        rw [← hac]
        have ht : t = [] := by
          have hperm := sortBy_perm le t
          rw [hnil] at hperm
          exact (List.Perm.nil_eq hperm).symm
        subst ht
        rcases List.mem_singleton.mp hx with rfl
        rcases htotal x x with hcc | hcc
        · exact hcc
        · exact hcc
      · rw [hhead] at hc
        injection hc with hac
        rw [← hac]
        rcases List.mem_cons.mp hx with rfl | hxt
        · rcases htotal x x with hcc | hcc
          · exact hcc
          · exact hcc
        · exact htrans a b x hab (ih b (by rw [hs]; rfl) x hxt)
      · rw [hhead] at hc
        injection hc with hbc
        rw [← hbc]
        rcases List.mem_cons.mp hx with rfl | hxt
        · rcases htotal x b with hxc | hxc
          · rw [hab] at hxc
            cases hxc
          · exact hxc
        · exact ih b (by rw [hs]; rfl) x hxt

/-- The candidate chosen by the rating-descending re-sort has maximal
rating among the candidates it was chosen from. -/
theorem byRatingDesc_max (l : List Candidate) (c : Candidate)
    (hc : (sortBy byRatingDesc l).head? = some c) :
    ∀ x ∈ l, x.rating ≤ c.rating := by
  have h := sortBy_head_max byRatingDesc
    (by
      intro a b c hab hbc
      simp only [byRatingDesc, decide_eq_true_eq] at hab hbc ⊢
      exact le_trans hbc hab)
    (by
      intro a b
      simp only [byRatingDesc, decide_eq_true_eq]
      exact le_total b.rating a.rating)
    l c hc
  intro x hx
  have hcx := h x hx
  simpa [byRatingDesc] using hcx

/-- C10: the filtering step never changes which candidate shops a product
has, only their order: for every product, the rows after the filter-choice
re-sort and keep-top-10 are a permutation of the top-10-by-rating rows
produced by candidate retrieval (re-sorting an at-most-10-row set and
keeping the top 10 removes nothing); and since path generation re-sorts
the remaining candidates by rating descending and takes the head, the
selected candidate always has maximal rating among them — so the filter
choice can affect the final paths only through tie-breaking among equally
rated shops. -/
theorem filterStep_preserves_candidates (filter_choice : Int)
    (distf : ℚ → ℚ → ℚ → ℚ → ℚ) (loc : ℚ × ℚ) (inventory : List InvRow)
    (shops : List ShopRow) (product : String) :
    List.Perm
      (applyFilter filter_choice
        (retrieveTop10 distf loc inventory shops product))
      (retrieveTop10 distf loc inventory shops product) ∧
    (∀ (l : List Candidate) (c : Candidate),
      (sortBy byRatingDesc l).head? = some c →
      ∀ x ∈ l, x.rating ≤ c.rating) :=
  ⟨applyFilter_perm filter_choice _ (List.length_take_le 10 _),
   byRatingDesc_max⟩

/-- C10 witness: the maximal-rating conclusion evaluated on a one-element
candidate list. -/
theorem filterStep_preserves_candidates_witness :
    ((sortBy byRatingDesc [c10cand]).head? = some c10cand) ∧
    c10cand.rating ≤ c10cand.rating :=
  ⟨by decide,
   (filterStep_preserves_candidates 1 zeroDist (0, 0) c2inventory c6shops
     "apple").2 [c10cand] c10cand (by decide) c10cand (by decide)⟩

/-! ## The matching step: C1, C2, C3 -/

/-- Unfolding the matching loop over a request ending in one more item. -/
theorem matchStep_append (scorer : String → String → Nat)
    (inventory : List InvRow) (cats prods : List String) (st : FuzzyState)
    (items : List (String × String)) (c p : String) :
    matchStep scorer inventory cats prods st (items ++ [(c, p)]) =
      (let acc := matchStep scorer inventory cats prods st items
       let r := resolveItem scorer inventory cats prods acc.2 c p
       if truthy r.1 && truthy r.2.1 then
         (dinsert acc.1 (r.1.getD "") (r.2.1.getD ""), r.2.2)
       else (acc.1, r.2.2)) := by
  unfold matchStep
  rw [List.foldl_append]
  rfl

/-- C1 (counterexample): with two request items whose categories both
resolve to the canonical category "X" and whose products resolve to "A"
and "B" respectively, the entry recorded in `matched_results` for "X" is
the LATER item's product "B", not the earlier item's "A": dict assignment
overwrites on category collision, so the earlier item, not the later one,
is the one that is dropped. -/
theorem matchStep_collision_cex :
    (resolveItem zeroScorer [] [] [] c1state "catA" "p1").1 = some "X" ∧
    (resolveItem zeroScorer [] [] [] c1state "catA" "p1").2.1 = some "A" ∧
    (resolveItem zeroScorer [] [] [] c1state "catB" "p2").1 = some "X" ∧
    (resolveItem zeroScorer [] [] [] c1state "catB" "p2").2.1 = some "B" ∧
    dlookup (matchStep zeroScorer [] [] [] c1state
      [("catA", "p1"), ("catB", "p2")]).1 "X" = some "B" ∧
    (some "B" : Option String) ≠ some "A" := by decide

/-- C1 (amended): on a category collision the LAST occurrence wins on the
recorded product (the category key keeps its first-seen position): if the
final request item resolves to category `mc` and product `mp` (both
truthy), the entry recorded for `mc` is `mp`, whatever earlier items
wrote. -/
theorem matchStep_collision_last_wins (scorer : String → String → Nat)
    (inventory : List InvRow) (cats prods : List String) (st : FuzzyState)
    (items : List (String × String)) (c p mc mp : String)
    (h1 : (resolveItem scorer inventory cats prods
      (matchStep scorer inventory cats prods st items).2 c p).1 = some mc)
    (h2 : (resolveItem scorer inventory cats prods
      (matchStep scorer inventory cats prods st items).2 c p).2.1 = some mp)
    (hc : mc ≠ "") (hp : mp ≠ "") :
    dlookup (matchStep scorer inventory cats prods st
      (items ++ [(c, p)])).1 mc = some mp := by
  rw [matchStep_append scorer inventory cats prods st items c p]
  simp only [h1, h2]
  have hct : truthy (some mc) = true := by simp [truthy, hc]
  have hpt : truthy (some mp) = true := by simp [truthy, hp]
  rw [hct, hpt]
  simp only [Bool.and_self, if_true, Option.getD_some]
  exact dlookup_dinsert _ _ _

/-- C1 witness: the amended theorem evaluated on the two-item collision
request. -/
theorem matchStep_collision_last_wins_witness :
    dlookup (matchStep zeroScorer [] [] [] c1state
      ([("catA", "p1")] ++ [("catB", "p2")])).1 "X" = some "B" :=
  matchStep_collision_last_wins zeroScorer [] [] [] c1state
    [("catA", "p1")] "catB" "p2" "X" "B" (by decide) (by decide)
    (by decide) (by decide)

/-- C2 (counterexample): for the request item `("c", "zzz")` the global
product resolution fails (best score 10 < 75), the category resolves to
"Cat", and the restricted retry's best score is again 10 < 75 — yet the
item is NOT dropped: the fallback on line 93 applies `extractOne` with no
threshold, so "apple" is recorded for "Cat". -/
theorem fallback_threshold_cex :
    (fuzzy_match c2scorer c2state "zzz" (unique_products c2inventory)
      Kind.products).1 = none ∧
    extractOne c2scorer "zzz" (uniqueList ((c2inventory.filter
      (fun r => r.category == "Cat")).map (fun r => r.productName))) =
      some ("apple", 10) ∧
    (10 : Nat) < 75 ∧
    dlookup (matchStep c2scorer c2inventory ["Cat"]
      (unique_products c2inventory) c2state [("c", "zzz")]).1 "Cat" =
      some "apple" := by decide

/-- C2 (amended): when the global product resolution fails and a (truthy)
category was matched and the matched category's product vocabulary is
non-empty, the retry accepts the best-scoring product of that vocabulary
UNCONDITIONALLY — no threshold is applied and nothing is written to the
training cache; the item is dropped only when the category has no
products. -/
theorem resolveItem_fallback_no_threshold (scorer : String → String → Nat)
    (inventory : List InvRow) (cats prods : List String) (st : FuzzyState)
    (category product mc : String)
    (h1 : (fuzzy_match scorer st category cats Kind.categories).1 = some mc)
    (hmc : mc ≠ "")
    (h2 : (fuzzy_match scorer
      (fuzzy_match scorer st category cats Kind.categories).2 product prods
      Kind.products).1 = none)
    (hne : (uniqueList ((inventory.filter (fun r => r.category == mc)).map
      (fun r => r.productName))).isEmpty = false) :
    (resolveItem scorer inventory cats prods st category product).2.1 =
      (extractOne scorer product
        (uniqueList ((inventory.filter (fun r => r.category == mc)).map
          (fun r => r.productName)))).map (fun pr => pr.1) := by
  unfold resolveItem
  simp only [h1, h2]
  simp [truthy, hmc, hne]

/-- C2 witness: the amended theorem evaluated on the concrete fixture. -/
theorem resolveItem_fallback_no_threshold_witness :
    (resolveItem c2scorer c2inventory ["Cat"] (unique_products c2inventory)
      c2state "c" "zzz").2.1 =
      (extractOne c2scorer "zzz"
        (uniqueList ((c2inventory.filter (fun r => r.category == "Cat")).map
          (fun r => r.productName)))).map (fun pr => pr.1) :=
  resolveItem_fallback_no_threshold c2scorer c2inventory ["Cat"]
    (unique_products c2inventory) c2state "c" "zzz" "Cat"
    (by decide) (by decide) (by decide) (by decide)

/-- C3 (counterexample): a training-cache state mapping "q" to "ghost"
makes `fuzzy_match` return "ghost" against the vocabulary `["a"]`, and
"ghost" is not a member of that vocabulary: a cache hit bypasses the
vocabulary entirely, so resolution CAN return a term outside the
vocabulary passed in the call. -/
theorem fuzzy_match_cache_escape_cex :
    ((fuzzy_match zeroScorer
        ⟨⟨[("q", "ghost")], []⟩, ⟨[("q", "ghost")], []⟩⟩
        "q" ["a"] Kind.categories).1 = some "ghost") ∧
      "ghost" ∉ (["a"] : List String) := by decide

/-- C3 (amended): on a cache miss, fuzzy resolution returns `none` or a
member of the vocabulary passed in that call. -/
theorem fuzzy_match_mem_choices (scorer : String → String → Nat)
    (st : FuzzyState) (query : String) (choices : List String) (kind : Kind)
    (t : String) (hmiss : dlookup (st.data.get kind) query = none)
    (h : (fuzzy_match scorer st query choices kind).1 = some t) :
    t ∈ choices := by
  unfold fuzzy_match at h
  rw [hmiss] at h
  cases hE : extractOne scorer query choices with
  | none => rw [hE] at h; simp at h
  | some pr =>
      obtain ⟨m, s⟩ := pr
      rw [hE] at h
      by_cases hs : s ≥ 75
      · have hmt : m = t := by simpa [hs] using h
        exact hmt ▸ extractOne_mem scorer query choices m s hE
      · simp [hs] at h

/-- C3 witness: the amended theorem evaluated on a one-word vocabulary. -/
theorem fuzzy_match_mem_choices_witness :
    (fuzzy_match c2scorer emptyFuzzy "apple" ["apple"] Kind.products).1 =
      some "apple" ∧ "apple" ∈ (["apple"] : List String) :=
  ⟨by decide, fuzzy_match_mem_choices c2scorer emptyFuzzy "apple" ["apple"]
    Kind.products "apple" (by decide) (by decide)⟩

/-! ## Commit: C4, C5 -/

/-- The catalog reached by the commit loop is the fold of the per-entry
commit over the path. -/
theorem commitPath_state (cat : Catalog) (path : List PathEntry) :
    (commitPath cat path).1 =
      path.foldl (fun c e => (commitEntry c e).1) cat := by
  unfold commitPath
  suffices H : ∀ (l : List PathEntry) (c : Catalog) (done : List PathEntry),
      (l.foldl (fun acc e =>
        let r := commitEntry acc.1 e
        (r.1, acc.2 ++ [r.2])) (c, done)).1 =
      l.foldl (fun c e => (commitEntry c e).1) c by
    exact H path cat []
  intro l
  induction l with
  | nil => intro c done; rfl
  | cons e t ih =>
      intro c done
      simp only [List.foldl_cons]
      exact ih _ _

/-- After one committed entry every stock value is non-negative: the whole
column is clipped at 0. -/
theorem commitEntry_stock_nonneg (cat : Catalog) (e : PathEntry) :
    ∀ r ∈ (commitEntry cat e).1.inventory, 0 ≤ r.stockAvailability := by
  intro r hr
  simp only [commitEntry] at hr
  rcases List.mem_map.mp hr with ⟨r0, _, rfl⟩
  simp only [clipRow]
  exact le_max_right _ _

/-- Non-negative stock is preserved by any sequence of per-entry commits. -/
theorem foldl_commit_nonneg (path : List PathEntry) :
    ∀ cat : Catalog, (∀ r ∈ cat.inventory, 0 ≤ r.stockAvailability) →
    ∀ r ∈ (path.foldl (fun c e => (commitEntry c e).1) cat).inventory,
      0 ≤ r.stockAvailability := by
  induction path with
  | nil => intro cat h; simpa using h
  | cons e t ih =>
      intro cat _
      simp only [List.foldl_cons]
      exact ih _ (commitEntry_stock_nonneg cat e)

/-- C4: commits never drive `stockAvailability` below 0: starting from a
catalog whose stock values are non-negative, every inventory row stays
non-negative after committing any path (hence after any sequence of
commits), and decrementing a row already at 0 leaves it at 0 — the
over-decrement is clamped by the clip, not rejected (no error path
exists in the model). -/
theorem commit_stock_clamped (cat : Catalog) (path : List PathEntry)
    (hinit : ∀ r ∈ cat.inventory, 0 ≤ r.stockAvailability) :
    (∀ r ∈ (commitPath cat path).1.inventory, 0 ≤ r.stockAvailability) ∧
    (∀ (e : PathEntry) (r : InvRow), r.stockAvailability = 0 →
      (clipRow (decRow e r)).stockAvailability = 0) := by
  constructor
  · rw [commitPath_state]
    exact foldl_commit_nonneg path cat hinit
  · intro e r h0
    unfold clipRow decRow
    split
    · simp [h0]
    · simp [h0]

/-- C4 witness: committing against a zero-stock row leaves it at exactly
0. -/
theorem commit_stock_clamped_witness :
    (∀ r ∈ c4cat.inventory, 0 ≤ r.stockAvailability) ∧
    ((commitPath c4cat [c4entry]).1.inventory.map
      (fun r => r.stockAvailability) = [0]) ∧
    (∀ r ∈ (commitPath c4cat [c4entry]).1.inventory,
      0 ≤ r.stockAvailability) :=
  ⟨by decide, by decide,
    (commit_stock_clamped c4cat [c4entry] (by decide)).1⟩

/-- The queue increment does not change a shop row's id. -/
theorem bumpShop_shopId (e : PathEntry) (s : ShopRow) :
    (bumpShop e s).shopId = s.shopId := by
  unfold bumpShop
  split <;> rfl

/-- After committing a path, each shop row's queue has grown by exactly
the number of path entries referencing that shop. -/
theorem foldl_commit_shops (path : List PathEntry) :
    ∀ cat : Catalog,
      (path.foldl (fun c e => (commitEntry c e).1) cat).shops =
        cat.shops.map (fun s =>
          { s with queue_size := s.queue_size +
              ((path.filter (fun e => e.shopId == s.shopId)).length : Int) }) := by
  induction path with
  | nil =>
      intro cat
      simp only [List.foldl_nil, List.filter_nil, List.length_nil,
        Nat.cast_zero, Int.add_zero]
      exact (List.map_id cat.shops).symm
  | cons e t ih =>
      intro cat
      simp only [List.foldl_cons]
      rw [ih ((commitEntry cat e).1)]
      show (cat.shops.map (bumpShop e)).map _ = _
      rw [List.map_map]
      apply List.map_congr_left
      intro s _
      by_cases hm : (s.shopId == e.shopId) = true
      · have he : e.shopId == s.shopId := by
          have hmm : s.shopId = e.shopId := by simpa using hm
          simp [hmm]
        simp only [Function.comp, bumpShop, hm, if_pos, bumpShop_shopId,
          List.filter_cons, he, if_true]
        simp only [List.length_cons]
        congr 1
        push_cast
        omega
      · have he : (e.shopId == s.shopId) = false := by
          rw [Bool.eq_false_iff]
          intro hc
          have hcc : e.shopId = s.shopId := by simpa using hc
          simp [hcc] at hm
        simp only [Function.comp, bumpShop, hm, if_neg, List.filter_cons, he]
        simp [hm]

/-- C5: committing a path increments each shop row's `queue_size` by
exactly the number of path entries referencing that shop (so k entries
across successive commits add exactly k), and for an entry whose shop row
exists, the `new_token_number` written back into the committed entry is
that shop's queue size immediately after the increment — both as the
value stored in the entry and as the row's post-commit queue size. -/
theorem commit_queue_increment (cat : Catalog) (path : List PathEntry)
    (e : PathEntry) (s : ShopRow)
    (hfind : cat.shops.find? (fun s2 => s2.shopId == e.shopId) = some s) :
    ((commitPath cat path).1.shops =
      cat.shops.map (fun s2 =>
        { s2 with queue_size := s2.queue_size +
            ((path.filter (fun x => x.shopId == s2.shopId)).length : Int) })) ∧
    (commitEntry cat e).2.new_token_number = some (s.queue_size + 1) ∧
    ((commitEntry cat e).1.shops.find? (fun s2 => s2.shopId == e.shopId)).map
      (fun s2 => s2.queue_size) = some (s.queue_size + 1) := by
  have hpres : ((fun s2 : ShopRow => s2.shopId == e.shopId) ∘ bumpShop e) =
      (fun s2 : ShopRow => s2.shopId == e.shopId) := by
    funext x
    simp [Function.comp, bumpShop_shopId]
  have hmap : (cat.shops.map (bumpShop e)).find?
      (fun s2 => s2.shopId == e.shopId) = some (bumpShop e s) := by
    rw [List.find?_map, hpres, hfind]
    rfl
  have hps : (s.shopId == e.shopId) = true := by
    have hx := List.find?_some hfind
    simpa using hx
  have hbump : bumpShop e s = { s with queue_size := s.queue_size + 1 } := by
    unfold bumpShop
    rw [if_pos hps]
  refine ⟨?_, ?_, ?_⟩
  · rw [commitPath_state]
    exact foldl_commit_shops path cat
  · show ((cat.shops.map (bumpShop e)).find?
      (fun s2 => s2.shopId == e.shopId)).map (fun s2 => s2.queue_size) = _
    rw [hmap, hbump]
    rfl
  · show ((cat.shops.map (bumpShop e)).find?
      (fun s2 => s2.shopId == e.shopId)).map (fun s2 => s2.queue_size) = _
    rw [hmap, hbump]
    rfl

/-- C5 witness: one commit against a shop with queue 0 records token 1. -/
theorem commit_queue_increment_witness :
    (c4cat.shops.find? (fun s2 => s2.shopId == c4entry.shopId) =
      some (⟨1, "S", "Cat", 0, 0, 5, 10, 0⟩ : ShopRow)) ∧
    ((commitPath c4cat [c4entry]).1.shops =
      c4cat.shops.map (fun s2 =>
        { s2 with queue_size := s2.queue_size +
            (([c4entry].filter (fun x => x.shopId == s2.shopId)).length : Int) })) ∧
    (commitEntry c4cat c4entry).2.new_token_number = some 1 :=
  ⟨by decide,
   (commit_queue_increment c4cat [c4entry] c4entry
     ⟨1, "S", "Cat", 0, 0, 5, 10, 0⟩ (by decide)).1,
   (commit_queue_increment c4cat [c4entry] c4entry
     ⟨1, "S", "Cat", 0, 0, 5, 10, 0⟩ (by decide)).2.1⟩

/-! ## Path generation: C6, C9 -/

/-- Dict assignment preserves distinctness of the keys. -/
theorem dinsert_keys_nodup {β : Type} (d : List (String × β)) (k : String)
    (v : β) (h : (d.map Prod.fst).Nodup) :
    ((dinsert d k v).map Prod.fst).Nodup := by
  unfold dinsert
  by_cases hany : d.any (fun p => p.1 = k) = true
  · rw [if_pos hany, List.map_map]
    have hfst : ((Prod.fst ∘ fun p : String × β =>
        if p.1 = k then (k, v) else p)) = Prod.fst := by
      funext p
      by_cases hp : p.1 = k
      · simp [Function.comp, hp]
      · simp [Function.comp, hp]
    rw [hfst]
    exact h
  · rw [if_neg hany, List.map_append]
    have hk : k ∉ d.map Prod.fst := by
      intro hmem
      rcases List.mem_map.mp hmem with ⟨p, hp, hpk⟩
      have hall : ∀ p ∈ d, ¬ (p.1 = k) := by
        simpa [List.any_eq_false] using (Bool.eq_false_iff.mpr hany)
      exact hall p hp hpk
    simp [List.nodup_append, h, hk]

/-- The products keying `final_shop_recommendations` are pairwise
distinct. -/
theorem recommendationStep_keys_nodup (distf : ℚ → ℚ → ℚ → ℚ → ℚ)
    (loc : ℚ × ℚ) (inventory : List InvRow) (shops : List ShopRow)
    (matched : List (String × String)) :
    ((recommendationStep distf loc inventory shops matched).map
      Prod.fst).Nodup := by
  unfold recommendationStep
  suffices H : ∀ (l : List (String × String))
      (acc : List (String × List Candidate)), (acc.map Prod.fst).Nodup →
      ((l.foldl (fun acc kv =>
        if (product_shops distf loc inventory shops kv.2).isEmpty then acc
        else dinsert acc kv.2 (retrieveTop10 distf loc inventory shops kv.2))
        acc).map Prod.fst).Nodup by
    exact H matched [] (by simp)
  intro l
  induction l with
  | nil => intro acc h; exact h
  | cons kv t ih =>
      intro acc h
      simp only [List.foldl_cons]
      by_cases hc : (product_shops distf loc inventory shops kv.2).isEmpty = true
      · rw [if_pos hc]
        exact ih acc h
      · rw [if_neg hc]
        exact ih _ (dinsert_keys_nodup acc kv.2 _ h)

/-- Filtering rewrites each product's candidate set in place: the keys are
unchanged. -/
theorem filterStep_keys (filter_choice : Int)
    (recs : List (String × List Candidate)) :
    (filterStep filter_choice recs).map Prod.fst = recs.map Prod.fst := by
  unfold filterStep
  rw [List.map_map]
  rfl

/-- One step of the path loop either leaves the accumulator unchanged or
appends an entry for a candidate of the current product whose shop is not
yet excluded. -/
theorem genPathStep_cases (acc : List PathEntry × List Nat)
    (kv : String × List Candidate) :
    genPathStep acc kv = acc ∨
    ∃ c, c ∈ kv.2 ∧ c.shopId ∉ acc.2 ∧
      genPathStep acc kv = (acc.1 ++ [mkEntry kv.1 c], acc.2 ++ [c.shopId]) := by
  unfold genPathStep
  cases hs : sortBy byRatingDesc
      (kv.2.filter (fun c => !(acc.2.contains c.shopId))) with
  | nil => exact Or.inl rfl
  | cons c rest =>
      refine Or.inr ⟨c, ?_, ?_, rfl⟩
      · have hc : c ∈ kv.2.filter (fun c => !(acc.2.contains c.shopId)) := by
          have hm : c ∈ sortBy byRatingDesc
              (kv.2.filter (fun c => !(acc.2.contains c.shopId))) := by
            rw [hs]; exact List.mem_cons_self _ _
          exact (sortBy_perm _ _).mem_iff.mp hm
        exact (List.mem_filter.mp hc).1
      · have hc : c ∈ kv.2.filter (fun c => !(acc.2.contains c.shopId)) := by
          have hm : c ∈ sortBy byRatingDesc
              (kv.2.filter (fun c => !(acc.2.contains c.shopId))) := by
            rw [hs]; exact List.mem_cons_self _ _
          exact (sortBy_perm _ _).mem_iff.mp hm
        have hb := (List.mem_filter.mp hc).2
        intro hmem
        simp at hb
        exact hb hmem

/-- Invariant of the path loop: with distinct product keys, the entries
accumulate pairwise-distinct shop ids and pairwise-distinct products. -/
theorem genPath_fold_nodup (recs : List (String × List Candidate)) :
    ∀ (acc : List PathEntry × List Nat),
      (acc.1.map PathEntry.shopId).Nodup →
      (∀ x ∈ acc.1, x.shopId ∈ acc.2) →
      (acc.1.map PathEntry.product).Nodup →
      (∀ x ∈ acc.1, x.product ∉ recs.map Prod.fst) →
      (recs.map Prod.fst).Nodup →
      ((recs.foldl genPathStep acc).1.map PathEntry.shopId).Nodup ∧
      ((recs.foldl genPathStep acc).1.map PathEntry.product).Nodup := by
  induction recs with
  | nil =>
      intro acc h1 _ h3 _ _
      exact ⟨h1, h3⟩
  | cons kv t ih =>
      intro acc h1 h2 h3 h4 h5
      simp only [List.foldl_cons]
      rcases genPathStep_cases acc kv with heq | ⟨c, hcmem, hcnot, heq⟩
      · rw [heq]
        refine ih acc h1 h2 h3 (fun x hx => ?_) ?_
        · have hx4 := h4 x hx
          simp only [List.map_cons, List.mem_cons] at hx4
          intro hmem
          exact hx4 (Or.inr hmem)
        · exact (List.nodup_cons.mp h5).2
      · rw [heq]
        have hsid : c.shopId ∉ acc.1.map PathEntry.shopId := by
          intro hmem
          rcases List.mem_map.mp hmem with ⟨x, hx, hxe⟩
          exact hcnot (hxe ▸ h2 x hx)
        have hprod : kv.1 ∉ acc.1.map PathEntry.product := by
          intro hmem
          rcases List.mem_map.mp hmem with ⟨x, hx, hxe⟩
          have hx4 := h4 x hx
          simp only [List.map_cons, List.mem_cons] at hx4
          exact hx4 (Or.inl hxe)
        refine ih _ ?_ ?_ ?_ ?_ ((List.nodup_cons.mp h5).2)
        · rw [List.map_append]
          simp [List.nodup_append, h1, hsid, mkEntry]
        · intro x hx
          rcases List.mem_append.mp hx with hx1 | hx2
          · exact List.mem_append.mpr (Or.inl (h2 x hx1))
          · have hxm : x = mkEntry kv.1 c := by simpa using hx2
            subst hxm
            simp [mkEntry]
        · rw [List.map_append]
          simp [List.nodup_append, h3, hprod, mkEntry]
        · intro x hx
          rcases List.mem_append.mp hx with hx1 | hx2
          · have hx4 := h4 x hx1
            simp only [List.map_cons, List.mem_cons] at hx4
            intro hmem
            exact hx4 (Or.inr hmem)
          · have hxm : x = mkEntry kv.1 c := by simpa using hx2
            subst hxm
            simp only [mkEntry]
            exact (List.nodup_cons.mp h5).1

/-- A generated path over distinct product keys repeats no shop and no
product. -/
theorem genPath_nodup (recs : List (String × List Candidate))
    (h : (recs.map Prod.fst).Nodup) :
    ((genPath recs).map PathEntry.shopId).Nodup ∧
    ((genPath recs).map PathEntry.product).Nodup :=
  genPath_fold_nodup recs ([], []) (by simp) (by simp) (by simp)
    (by simp) h

/-- The five-iteration loop appends five identical paths. -/
theorem generatePaths_eq_replicate (recs : List (String × List Candidate)) :
    generatePaths recs = List.replicate 5 (genPath recs) := rfl

/-- C9: the five generated paths are pairwise equal: each attempt starts
from the same candidate sets with a freshly emptied exclusion set and
consumes no state across attempts, so `possible_paths` is always five
copies of one path. -/
theorem generatePaths_replicate (recs : List (String × List Candidate)) :
    generatePaths recs = List.replicate 5 (genPath recs) ∧
    ∀ p1 ∈ generatePaths recs, ∀ p2 ∈ generatePaths recs, p1 = p2 := by
  refine ⟨generatePaths_eq_replicate recs, ?_⟩
  intro p1 h1 p2 h2
  rw [generatePaths_eq_replicate recs] at h1 h2
  rw [List.eq_of_mem_replicate h1, List.eq_of_mem_replicate h2]

/-- C9 witness: the pairwise-equality conclusion evaluated on the empty
recommendation mapping. -/
theorem generatePaths_replicate_witness :
    ([] : List PathEntry) ∈ generatePaths [] ∧
    ([] : List PathEntry) = ([] : List PathEntry) :=
  ⟨by decide,
    (generatePaths_replicate []).2 [] (by decide) [] (by decide)⟩

/-- C6: no generated path contains two entries with the same shop id, and
no generated path contains two entries for the same requested product. -/
theorem paths_nodup (scorer : String → String → Nat)
    (distf : ℚ → ℚ → ℚ → ℚ → ℚ) (st : EvalState)
    (test_input : List (String × String)) (filter_choice : Int)
    (user_location : ℚ × ℚ) :
    ∀ path ∈ evalPaths scorer distf st test_input filter_choice
      user_location,
      (path.map PathEntry.shopId).Nodup ∧
      (path.map PathEntry.product).Nodup := by
  intro path hp
  have hkeys : ((evalRecs scorer distf st test_input filter_choice
      user_location).map Prod.fst).Nodup := by
    unfold evalRecs
    rw [filterStep_keys]
    exact recommendationStep_keys_nodup _ _ _ _ _
  have hpath : path = genPath (evalRecs scorer distf st test_input
      filter_choice user_location) := by
    unfold evalPaths at hp
    rw [generatePaths_eq_replicate] at hp
    exact List.eq_of_mem_replicate hp
  rw [hpath]
  exact genPath_nodup _ hkeys

/-- C6 witness: the conclusion evaluated on the one-shop fixture, whose
generated path has one entry. -/
theorem paths_nodup_witness :
    (genPath (evalRecs c2scorer zeroDist c6st [("c", "zzz")] 1 (0, 0)) ∈
      evalPaths c2scorer zeroDist c6st [("c", "zzz")] 1 (0, 0)) ∧
    (((genPath (evalRecs c2scorer zeroDist c6st [("c", "zzz")] 1
      (0, 0))).map PathEntry.shopId).Nodup ∧
     ((genPath (evalRecs c2scorer zeroDist c6st [("c", "zzz")] 1
      (0, 0))).map PathEntry.product).Nodup) :=
  ⟨by decide,
   paths_nodup c2scorer zeroDist c6st [("c", "zzz")] 1 (0, 0)
     (genPath (evalRecs c2scorer zeroDist c6st [("c", "zzz")] 1 (0, 0)))
     (by decide)⟩

/-! ## The no-valid-path branch: C7 -/

/-- Python indexing of an empty list always raises. -/
theorem pyGet_nil {α : Type} (i : Int) : pyGet ([] : List α) i = none := by
  unfold pyGet
  split
  · simp
  · split
    · simp
    · rfl

/-- C7: when the path at `selected_path_index` is empty (including when no
products matched), `evaluate_recommendations` returns the structured
no-valid-path result carrying the full `possible_paths` list, raises no
exception (the result is `some`, not the `none` that models an uncaught
error), and performs no commit: the returned state differs from the input
state at most in the fuzzy-matcher state — the inventory rows, the shop
rows and the two persisted CSV datasets are exactly as they were. -/
theorem evaluate_noPath (scorer : String → String → Nat)
    (distf : ℚ → ℚ → ℚ → ℚ → ℚ) (st : EvalState)
    (test_input : List (String × String)) (filter_choice : Int)
    (selection_type : String) (user_location : ℚ × ℚ) (idx : Int)
    (h : pyGet (evalPaths scorer distf st test_input filter_choice
      user_location) idx = some []) :
    evaluate_recommendations scorer distf st test_input filter_choice
        selection_type user_location idx =
      some (EvalResult.noPath "No valid shop path found."
        (evalPaths scorer distf st test_input filter_choice user_location),
        { st with fuzzy := (evalMatch scorer st test_input).2 }) ∧
    (∀ res : EvalResult × EvalState,
      evaluate_recommendations scorer distf st test_input filter_choice
        selection_type user_location idx = some res →
      res.2.inventory = st.inventory ∧ res.2.shops = st.shops ∧
      res.2.inventoryFile = st.inventoryFile ∧
      res.2.shopFile = st.shopFile) := by
  have hne : (evalPaths scorer distf st test_input filter_choice
      user_location).isEmpty = false := by
    cases hE : evalPaths scorer distf st test_input filter_choice
        user_location with
    | nil => rw [hE, pyGet_nil] at h; cases h
    | cons a t => rfl
  have hmain : evaluate_recommendations scorer distf st test_input
      filter_choice selection_type user_location idx =
      some (EvalResult.noPath "No valid shop path found."
        (evalPaths scorer distf st test_input filter_choice user_location),
        { st with fuzzy := (evalMatch scorer st test_input).2 }) := by
    unfold evaluate_recommendations
    simp [hne, h]
  refine ⟨hmain, ?_⟩
  intro res hres
  rw [hmain] at hres
  cases hres
  exact ⟨rfl, rfl, rfl, rfl⟩

/-- C7 witness: a request of unmatchable strings against empty catalogs
yields five empty paths and the no-valid-path result. -/
theorem evaluate_noPath_witness :
    (pyGet (evalPaths zeroScorer zeroDist emptySt [("x", "y")] 1 (0, 0)) 0 =
      some []) ∧
    evaluate_recommendations zeroScorer zeroDist emptySt [("x", "y")] 1
        "categorical" (0, 0) 0 =
      some (EvalResult.noPath "No valid shop path found."
        (evalPaths zeroScorer zeroDist emptySt [("x", "y")] 1 (0, 0)),
        { emptySt with
            fuzzy := (evalMatch zeroScorer emptySt [("x", "y")]).2 }) :=
  ⟨by decide,
   (evaluate_noPath zeroScorer zeroDist emptySt [("x", "y")] 1
     "categorical" (0, 0) 0 (by decide)).1⟩

end RecommendationModule
